import Mathlib

/-!
Verification development for the `ffmpeg-json` supervisor (`src/main.go`).

The program wraps an `ffmpeg` subprocess, decodes its carriage-return
delimited progress stream into typed samples (`State`), detects stall and
failure conditions, and on exit decides whether to finish, retry (possibly
mutating the argument vector), or fail.

Modelling conventions:
  * Go strings are modelled as Lean `String`; the character-level helpers
    below (`startsWithL`, `containsL`, ...) work over `List Char` so that
    every predicate is executable and kernel-reducible.
  * Go `int` is modelled as `Int`; `float64` fields of the progress sample
    are modelled as `Rat` (exact arithmetic; the program only multiplies
    them by integer-valued factors in the paths studied here).
  * The captured stderr is modelled as the list of its lines, in emission
    order, as produced by the line scanner after CR-to-LF normalization.
  * The exit-time decision of `main` (source lines 141-192) is modelled as
    the pure function `exitDecision` returning an `Outcome`; `Outcome.nilDeref`
    marks the control point where the Go code dereferences `hwframesptr`
    while it is `nil` (a runtime panic).
-/

/-- Go `unicode.IsSpace` restricted to the ASCII whitespace that can occur
in ffmpeg status lines (models `strings.TrimSpace` cutset). -/
def isSpaceGo (c : Char) : Bool :=
  c = ' ' || c = '\t' || c = '\n' || c = '\r' || c = '\x0b' || c = '\x0c'

/-- Go `strings.TrimSpace` on a character list. -/
def trimL (l : List Char) : List Char :=
  ((l.dropWhile isSpaceGo).reverse.dropWhile isSpaceGo).reverse

/-- Go `strings.Split` for a single-character separator: no merging of
adjacent separators, empty pieces preserved. -/
def splitOnC (sep : Char) : List Char → List (List Char)
  | [] => [[]]
  | c :: t =>
    match splitOnC sep t with
    | [] => [[]]
    | h :: r => if c = sep then [] :: h :: r else (c :: h) :: r

/-- Go `strings.HasPrefix` on character lists. -/
def startsWithL (hay pat : List Char) : Bool :=
  pat.isPrefixOf hay

/-- Go `strings.Contains` on character lists. -/
def containsL (hay pat : List Char) : Bool :=
  match hay with
  | [] => pat.isEmpty
  | _ :: t => pat.isPrefixOf hay || containsL t pat

/-- An occurrence of `pat` in `hay` that is followed by at least one more
character (regexp `pat.+` with `MatchString`, lines holding no newline). -/
def containsMoreAfter (hay pat : List Char) : Bool :=
  match hay with
  | [] => false
  | _ :: t => (pat.isPrefixOf hay && decide (pat.length < hay.length)) || containsMoreAfter t pat

/-- Longest leading run of decimal digits, as a value together with its
length; `none` when the first character is not a digit. -/
def digitRun (l : List Char) : Option (Nat × Nat) :=
  match l with
  | [] => none
  | c :: t =>
    if c.isDigit then
      match digitRun t with
      | some (v, n) => some ((c.toNat - 48) * 10 ^ n + v, n + 1)
      | none => some (c.toNat - 48, 1)
    else none

/-- Models `fmt.Sscan` of a token into an `*int`: optional sign followed by
a digit run; trailing garbage is ignored (the integer scanned so far is
still stored); `none` when no integer could be read (destination kept). -/
def parseIntGo (l : List Char) : Option Int :=
  match l with
  | '-' :: t => (digitRun t).map (fun p => -(p.1 : Int))
  | '+' :: t => (digitRun t).map (fun p => (p.1 : Int))
  | _ => (digitRun l).map (fun p => (p.1 : Int))

/-- Models `fmt.Sscan` of a token into a `*float64`: optional sign, integer
digits, optional dot and fraction digits; at least one digit overall;
trailing garbage (e.g. `kbits/s`) ignored; exact rational value. -/
def parseRatGo (l : List Char) : Option Rat :=
  let core : List Char → Option Rat := fun l =>
    match digitRun l with
    | some (v, n) =>
      match l.drop n with
      | '.' :: t =>
        match digitRun t with
        | some (fv, fn) => some ((v : Rat) + (fv : Rat) / (10 ^ fn : Nat))
        | none => some (v : Rat)
      | _ => some (v : Rat)
    | none =>
      match l with
      | '.' :: t => (digitRun t).map (fun p => (p.1 : Rat) / (10 ^ p.2 : Nat))
      | _ => none
  match l with
  | '-' :: t => (core t).map (fun q => -q)
  | '+' :: t => core t
  | _ => core l

/-- Go `strconv.Atoi`: whole string must be an optionally signed decimal
integer, otherwise the result is 0 (the program ignores the error). -/
def atoiGo (l : List Char) : Int :=
  let whole : List Char → Option Nat := fun d =>
    match digitRun d with
    | some (v, n) => if d.length = n then some v else none
    | none => none
  match l with
  | '-' :: t => match whole t with | some v => -(v : Int) | none => 0
  | '+' :: t => match whole t with | some v => (v : Int) | none => 0
  | _ => match whole l with | some v => (v : Int) | none => 0

/-- `round100` from `src/main.go`: `math.Round(f*100)/100`, with Go's
round-half-away-from-zero. -/
def roundAwayFromZero (q : Rat) : Int :=
  if 0 ≤ q then ⌊q + 1 / 2⌋ else ⌈q - 1 / 2⌉

def round100 (q : Rat) : Rat :=
  (roundAwayFromZero (q * 100) : Rat) / 100

/-- State is a carriage-return delimited output line in ffmpeg
(`src/main.go`, struct `State`). `Time` is the raw timestamp string, as in
the Go `type Time string`. -/
structure State where
  Frame : Int := 0
  FPS : Int := 0
  Q : Rat := 0
  Time : String := ""
  Size : Int := 0
  Bitrate : Rat := 0
  Dup : Int := 0
  Drop : Int := 0
  Speed : Rat := 0
deriving DecidableEq, Repr

/-- One entry of the `symtab` assignment in `State.Decode`: scan `val` into
the field selected by `key`; unrecognized keys are ignored, failed scans
leave the field unchanged. `size` and `Lsize` alias the same field. -/
def applyKV (s : State) (key val : List Char) : State :=
  if key = ("frame".toList) then { s with Frame := (parseIntGo val).getD s.Frame }
  else if key = ("fps".toList) then { s with FPS := (parseIntGo val).getD s.FPS }
  else if key = ("size".toList) then { s with Size := (parseIntGo val).getD s.Size }
  else if key = ("time".toList) then (if val = [] then s else { s with Time := String.mk val })
  else if key = ("Lsize".toList) then { s with Size := (parseIntGo val).getD s.Size }
  else if key = ("bitrate".toList) then { s with Bitrate := (parseRatGo val).getD s.Bitrate }
  else if key = ("dup".toList) then { s with Dup := (parseIntGo val).getD s.Dup }
  else if key = ("drop".toList) then { s with Drop := (parseIntGo val).getD s.Drop }
  else if key = ("q".toList) then { s with Q := (parseRatGo val).getD s.Q }
  else if key = ("speed".toList) then { s with Speed := (parseRatGo val).getD s.Speed }
  else s

/-- The `for i := 1; i < len(a); i += 2` loop of `State.Decode`: walk the
token list in key/value pairs (a trailing unpaired token is ignored). -/
def scanPairs (s : State) : List (List Char) → State
  | k :: v :: rest => scanPairs (applyKV s (trimL k) (trimL v)) rest
  | _ => s

/-- `demangle` from `src/main.go`: split the line on `=`, trim each piece,
and re-join with single spaces. -/
def demangle (line : List Char) : List Char :=
  List.intercalate [' '] ((splitOnC '=' line).map trimL)

/-- `State.Decode` from `src/main.go`. The Go code reads the global
`targetOutputs` (env `OUTPUTS`, defaulted to 1); here it is the explicit
first argument `tOut`. A line with neither recognized progress-line
plain text at its start is returned as the receiver, untouched. -/
def State.Decode (tOut : Int) (s : State) (line : String) : State :=
  if !(startsWithL line.toList ("frame=".toList)) && !(startsWithL line.toList ("size=".toList)) then s
  else
    let a := splitOnC ' ' (demangle line.toList)
    let s1 := scanPairs s a
    { s1 with FPS := s1.FPS * tOut, Speed := s1.Speed * round100 (tOut : Rat) }

/-- The two sticky condition flags of `src/main.go` (`hwframesbug`,
`vramoverflow`): process-wide booleans, set to true by substring matches on
the live stream, never reset. -/
structure Flags where
  hwframesbug : Bool := false
  vramoverflow : Bool := false
deriving DecidableEq, Repr

/-- The per-line flag updates of `watchState` (source lines 508-516):
`hwframesbug` on the decoder-surfaces marker, `vramoverflow` on the CUDA
out-of-memory marker or the nvenc open-session failure pair. -/
def updateFlags (fl : Flags) (line : String) : Flags :=
  { hwframesbug :=
      fl.hwframesbug || containsL line.toList ("No decoder surfaces left".toList)
    vramoverflow :=
      fl.vramoverflow || containsL line.toList ("CUDA_ERROR_OUT_OF_MEMORY".toList)
        || (containsL line.toList ("nvenc".toList)
            && containsL line.toList ("OpenEncodeSessionEx failed".toList)) }

/-- Line 519 of `src/main.go`: `s1 := State{}.Decode(sc.Text())` — the
candidate sample is decoded against a fresh zero `State`, not against the
last accepted sample. -/
def watchDecode (tOut : Int) (line : String) : State :=
  State.Decode tOut {} line

/-- Lines 519-524 of `src/main.go`: decode the candidate, then either skip
the line (`continue`) or emit the candidate and make it the new `s0`.
Returns (emitted sample if any, new last-accepted sample). -/
def watchStep (tOut : Int) (s0 : State) (line : String) : Option State × State :=
  let s1 := watchDecode tOut line
  if s1.Frame ≤ s0.Frame ∧ s1.Size ≤ s0.Size then (none, s0) else (some s1, s1)

/-- Accumulator of the `watchState` loop: condition flags, last accepted
sample `s0`, and the samples emitted so far (channel sends, in order). -/
structure WatchAcc where
  flags : Flags := {}
  s0 : State := {}
  out : List State := []
deriving DecidableEq, Repr

/-- One iteration of the `watchState` scanner loop over a normalized line:
update the condition flags, then run the decode/filter/emit step. -/
def watchLine (tOut : Int) (acc : WatchAcc) (line : String) : WatchAcc :=
  let fl := updateFlags acc.flags line
  match watchStep tOut acc.s0 line with
  | (some s1, s0n) => { flags := fl, s0 := s0n, out := acc.out ++ [s1] }
  | (none, s0n) => { flags := fl, s0 := s0n, out := acc.out }

/-- `watchState` from `src/main.go` over the list of normalized lines:
fold of `watchLine` starting from zero flags and the zero sample. -/
def watchState (tOut : Int) (lines : List String) : WatchAcc :=
  lines.foldl (watchLine tOut) {}

/-- The stall-counter update of the supervising loop (source lines
203-207): `if current.Frame <= prior.Frame && current.Frame != 0` increment
`nstall`, otherwise reset it to zero. -/
def nstallStep (prior current : State) (nstall : Nat) : Nat :=
  if current.Frame ≤ prior.Frame ∧ current.Frame ≠ 0 then nstall + 1 else 0

/-- Regexp `^[eE]rror` under `MatchString`. -/
def errLineM (l : List Char) : Bool :=
  startsWithL l ("error".toList) || startsWithL l ("Error".toList)

/-- Regexp `Impossible to open.+` under `MatchString` (unanchored): some
occurrence of the literal followed by at least one character. -/
def errImpossibleM (l : List Char) : Bool :=
  containsMoreAfter l ("Impossible to open".toList)

/-- Regexp `.+Invalid data found when processing input` under
`MatchString`: the literal occurs at position ≥ 1. -/
def errInvalidM (l : List Char) : Bool :=
  match l with
  | [] => false
  | _ :: t => containsL t ("Invalid data found when processing input".toList)

/-- Regexp `^[Ss]tream map.+matches no stream` under `MatchString`: the
10-character head, at least one character, then the closing literal. -/
def errNoStreamM (l : List Char) : Bool :=
  (startsWithL l ("Stream map".toList) || startsWithL l ("stream map".toList))
    && containsL (l.drop 11) ("matches no stream".toList)

/-- A line matches the fatal-pattern table `errCk` of `src/main.go`
(`errLine`, `errImpossible`, `errInvalid`, `errNoStream`). -/
def matchesErr (l : List Char) : Bool :=
  errLineM l || errImpossibleM l || errInvalidM l || errNoStreamM l

/-- `lastline` from `src/main.go` (lines 247-261): scan the captured lines
in emission order and return the first one matching any fatal pattern (the
function returns inside the loop on the first hit), or `""` if none. -/
def lastline : List String → String
  | [] => ""
  | l :: ls => if matchesErr l.toList then l else lastline ls

/-- The configuration and bookkeeping read by the exit-time decision of
`main`: `argv` models `os.Args` (program name at index 0), `retry` /
`maxretry` the RETRY / MAXRETRY counters, `hwframes` / `hwframesmax` the
tracked `-extra_hw_frames` value and its ceiling (default 64), and
`hwframesptr` the index into `argv` that `hwframesptr` points at
(`none` models a nil pointer). -/
structure ExitCfg where
  argv : List String
  retry : Int
  maxretry : Int
  hwframes : Int
  hwframesmax : Int
  hwframesptr : Option Nat
deriving DecidableEq, Repr

/-- Result of the exit-time decision of `main` (source lines 141-192).
`retrying argv retry backoff` models `doretry()` re-executing `argv` with
the child seeing retry counter `retry`; `backoff = true` records the fixed
`time.Sleep(2 * time.Second)` of the vram path. `nilDeref` marks the
dereference `*hwframesptr` executed with a nil pointer (runtime panic). -/
inductive Outcome where
  | done
  | failed (tail : String)
  | retrying (argv : List String) (retry : Int) (backoff : Bool)
  | nilDeref
deriving DecidableEq, Repr

/-- Exit-time decision of `main`, lines 141-192 of `src/main.go`:
`lasterr := lastline(logdata)`; a nil process error together with a
non-empty error tail is promoted to the synthetic error `ffmpeg failed`;
on success log done; otherwise try the vram-overflow remediation (budget
checked, fixed backoff, argv unchanged), then the hardware-frames
remediation (bounded by the ceiling, argv mutated at the tracked index),
and finally the fatal failure reporting the error tail. `exitErr` models
`err != nil` for the subprocess result, `captured` the captured stderr
lines. -/
def exitDecision (cfg : ExitCfg) (fl : Flags) (exitErr : Bool) (captured : List String) : Outcome :=
  let lasterr := lastline captured
  if exitErr = false ∧ lasterr = "" then Outcome.done
  else if fl.vramoverflow = true then
    if cfg.maxretry ≤ cfg.retry then Outcome.failed lasterr
    else Outcome.retrying cfg.argv (cfg.retry + 1) true
  else if fl.hwframesbug = true ∧ cfg.hwframes < cfg.hwframesmax then
    match cfg.hwframesptr with
    | some i => Outcome.retrying (cfg.argv.set i (toString (cfg.hwframes + 1))) (cfg.retry + 1) false
    | none => Outcome.nilDeref
  else Outcome.failed lasterr

/-- The bootstrap scan of `main` (source lines 115-121): walk `os.Args`
from index 1; whenever the preceding token is `-extra_hw_frames`, point
`hwframesptr` at the current argument (last match wins). Returns the index
the pointer ends up at, or `none` when the pointer stays nil. -/
def hwframesScan : List String → Option Nat
  | a :: b :: rest =>
    (match hwframesScan (b :: rest) with
     | some j => some (j + 1)
     | none => if a = "-extra_hw_frames" then some 1 else none)
  | _ => none

/-- The value `hwframes` holds after the bootstrap scan: `strconv.Atoi` of
the argument the pointer targets, or the zero value when no match. -/
def hwframesInit (argv : List String) : Int :=
  match hwframesScan argv with
  | some i => atoiGo ((argv.getD i "").toList)
  | none => 0

/-- Whether some argument of the vector contains the known-bad filter-chain
fragment (spec §4.5 rule 3; the fragment itself is a parameter, the spec
does not spell it). -/
def argvHasFragment (bad : String) (argv : List String) : Bool :=
  argv.any (fun a => containsL a.toList bad.toList)

/-- Replace every occurrence of `pat` by `rep`, scanning left to right,
non-overlapping; `fuel` bounds the recursion (callers pass the text length,
which suffices because every step consumes at least one character). -/
def replFuel (pat rep : List Char) : Nat → List Char → List Char
  | 0, hay => hay
  | _ + 1, [] => []
  | n + 1, c :: t =>
    if pat ≠ [] ∧ pat.isPrefixOf (c :: t) = true then
      rep ++ replFuel pat rep n (t.drop (pat.length - 1))
    else c :: replFuel pat rep n t

/-- String-level replacement of the bad fragment by the good one. -/
def replaceAll (bad good s : String) : String :=
  String.mk (replFuel bad.toList good.toList s.toList.length s.toList)

/-- Rewrite the known-bad filter-chain fragment to its known-good
equivalent wherever it occurs in the argument vector, leaving every other
character of every argument unchanged. -/
def rewriteFragment (bad good : String) (argv : List String) : List String :=
  argv.map (replaceAll bad good)

/-- Modelled from the spec: rule 3 of §4.5 (the filter-incompatibility
remediation) is not present in `src/main.go` — the source has no
`filterbug` flag and no filter-chain rewrite; only its surrounding
decision logic is in the source. Following the spec's words: if a
filter-incompatibility flag is set and the command line contains the
known-bad filter-chain fragment, rewrite that fragment to the known-good
equivalent in the argument vector and go to `Retrying` unconditionally,
with no budget check; the rule sits after the success checks and before
the vram-overflow rule, and every `Retrying` transition carries an
incremented retry counter. All other behavior falls back to the
source-derived `exitDecision`. -/
def exitDecisionSpec (bad good : String) (filterbug : Bool) (cfg : ExitCfg)
    (fl : Flags) (exitErr : Bool) (captured : List String) : Outcome :=
  if (exitErr = true ∨ lastline captured ≠ "") ∧ filterbug = true
      ∧ argvHasFragment bad cfg.argv = true then
    Outcome.retrying (rewriteFragment bad good cfg.argv) (cfg.retry + 1) false
  else exitDecision cfg fl exitErr captured

/-- Concrete fixtures used by witnesses and counterexamples. -/
def exS0 : State := { Frame := 5, Size := 3 }

def exC8 : State := { Frame := 7, FPS := 9, Dup := 2 }

def exPrior : State := { Frame := 9 }

def exCur : State := { Frame := 9 }

def exCur2 : State := { Frame := 10 }

def accC3 : WatchAcc := { flags := {}, s0 := exS0, out := [] }

def cfgC1 : ExitCfg := ⟨["ffmpeg-json", "-i", "in.mp4", "out.mp4"], 0, 60, 0, 64, none⟩

def cfgC2 : ExitCfg :=
  ⟨["ffmpeg-json", "-vf", "scale_cuda=w=1280:h=720:format=nv12", "out.mp4"], 7, 3, 0, 64, none⟩

def flagsVram : Flags := ⟨false, true⟩

def flagsHw : Flags := ⟨true, false⟩

def cfgC4a : ExitCfg := ⟨["ffmpeg-json", "-i", "in.mp4"], 60, 60, 0, 64, none⟩

def cfgC4b : ExitCfg := ⟨["ffmpeg-json", "-i", "in.mp4"], 2, 60, 0, 64, none⟩

def cfgC5 : ExitCfg :=
  ⟨["ffmpeg-json", "-extra_hw_frames", "8", "-i", "in.mp4"], 1, 60, 8, 64, some 2⟩

def cfgC5b : ExitCfg :=
  ⟨["ffmpeg-json", "-extra_hw_frames", "64", "-i", "in.mp4"], 1, 60, 64, 64, some 2⟩

def argvC10 : List String := ["ffmpeg-json", "-i", "rtmp://src", "-c:v", "h264_nvenc", "out.mp4"]

def argvC10b : List String := ["ffmpeg-json", "-extra_hw_frames", "8", "out.mp4"]

/-- A line with neither recognized progress-line head leaves the receiver
of `Decode` untouched (the early return of `State.Decode`). -/
theorem decode_skip (tOut : Int) (s : State) (line : String)
    (h1 : startsWithL line.toList ("frame=".toList) = false)
    (h2 : startsWithL line.toList ("size=".toList) = false) :
    State.Decode tOut s line = s := by
  simp only [State.Decode, h1, h2]
  rfl

/-- C8: for every sample `s` and every line not starting with a recognized
progress head (`frame=` or `size=`), `Decode` returns `s` unchanged, with
no output-count multiplier applied to fps or speed (identity property). -/
theorem claim_C8_decode_identity (tOut : Int) (s : State) (line : String)
    (h1 : startsWithL line.toList ("frame=".toList) = false)
    (h2 : startsWithL line.toList ("size=".toList) = false) :
    State.Decode tOut s line = s :=
  decode_skip tOut s line h1 h2

/-- C8 witness: a concrete non-progress line and a sample with non-zero
fps, decoded with multiplier 5, comes back identical. -/
theorem claim_C8_witness :
    State.Decode 5 exC8 "encoder         : Lavc h264_nvenc" = exC8 :=
  claim_C8_decode_identity 5 exC8 ("encoder         : Lavc h264_nvenc") (by decide) (by decide)

/-- C7 counterexample: in the sampler step with last accepted sample
`exS0 = {Frame 5, Size 3}`, the candidate for the non-progress line
`Press q to stop` is the zero sample, not the previous accepted sample as
the claim states — line 519 decodes against `State{}`, not against `s0`. -/
theorem claim_C7_counterexample :
    watchStep 1 exS0 ("Press [q] to stop") = (none, exS0)
    ∧ watchDecode 1 ("Press [q] to stop") = ({} : State)
    ∧ ({} : State) ≠ exS0 := by
  decide

/-- C7 amended: the sampler obtains the candidate sample by decoding the
line against the zero-value sample, so a line that does not start with a
recognized progress head yields the zero-value sample rather than the
previous accepted sample; provided the last accepted sample has
nonnegative frame and size, that zero candidate is then discarded by the
monotonicity filter, leaving the last accepted sample unchanged. -/
theorem claim_C7_amended (tOut : Int) (s0 : State) (line : String)
    (h1 : startsWithL line.toList ("frame=".toList) = false)
    (h2 : startsWithL line.toList ("size=".toList) = false)
    (hF : 0 ≤ s0.Frame) (hS : 0 ≤ s0.Size) :
    watchDecode tOut line = ({} : State) ∧ watchStep tOut s0 line = (none, s0) := by
  have hd : watchDecode tOut line = ({} : State) := decode_skip tOut {} line h1 h2
  refine ⟨hd, ?_⟩
  have hc : (watchDecode tOut line).Frame ≤ s0.Frame ∧ (watchDecode tOut line).Size ≤ s0.Size := by
    rw [hd]
    exact ⟨hF, hS⟩
  simp [watchStep, hc]

/-- C7 witness: the amended statement at a concrete non-progress line and
the concrete accepted sample `exS0`. -/
theorem claim_C7_witness :
    watchDecode 1 ("Stream mapping:") = ({} : State)
    ∧ watchStep 1 exS0 ("Stream mapping:") = (none, exS0) :=
  claim_C7_amended 1 exS0 ("Stream mapping:") (by decide) (by decide) (by decide) (by decide)

/-- C3: a line of the normalized stream is emitted by the sampler iff the
decoded candidate's frame count strictly exceeds the last accepted
sample's frame count or its size strictly exceeds the last accepted
sample's size; every other line is discarded with the last accepted sample
unchanged; on emission the candidate becomes the last accepted sample; and
the fold starts from the zero sample. -/
theorem claim_C3_monotonic_emission (tOut : Int) (acc : WatchAcc) (line : String) :
    ((watchLine tOut acc line).out = acc.out ++ [watchDecode tOut line]
      ↔ (acc.s0.Frame < (watchDecode tOut line).Frame ∨ acc.s0.Size < (watchDecode tOut line).Size))
    ∧ (¬(acc.s0.Frame < (watchDecode tOut line).Frame ∨ acc.s0.Size < (watchDecode tOut line).Size) →
        (watchLine tOut acc line).out = acc.out ∧ (watchLine tOut acc line).s0 = acc.s0)
    ∧ ((acc.s0.Frame < (watchDecode tOut line).Frame ∨ acc.s0.Size < (watchDecode tOut line).Size) →
        (watchLine tOut acc line).s0 = watchDecode tOut line)
    ∧ (watchState tOut []).s0 = ({} : State) := by
  by_cases h : (watchDecode tOut line).Frame ≤ acc.s0.Frame ∧ (watchDecode tOut line).Size ≤ acc.s0.Size
  · have hno : ¬(acc.s0.Frame < (watchDecode tOut line).Frame
        ∨ acc.s0.Size < (watchDecode tOut line).Size) := by
      rcases h with ⟨hf, hs⟩
      push_neg
      exact ⟨hf, hs⟩
    refine ⟨?_, fun _ => ?_, fun hor => absurd hor hno, rfl⟩
    · simp only [watchLine, watchStep, if_pos h]
      constructor
      · intro hout
        exact absurd (congrArg List.length hout) (by simp)
      · intro hor
        exact absurd hor hno
    · simp [watchLine, watchStep, if_pos h]
  · have hor : acc.s0.Frame < (watchDecode tOut line).Frame
        ∨ acc.s0.Size < (watchDecode tOut line).Size := by
      rcases not_and_or.mp h with hf | hs
      · exact Or.inl (lt_of_not_le hf)
      · exact Or.inr (lt_of_not_le hs)
    refine ⟨?_, fun hno => absurd hor hno, fun _ => ?_, rfl⟩
    · constructor
      · intro _
        exact hor
      · intro _
        simp [watchLine, watchStep, if_neg h]
    · simp [watchLine, watchStep, if_neg h]

/-- C3 witness: with last accepted sample `exS0` and the non-progress line
`Stream mapping`, the step discards the line and leaves the accepted
sample unchanged. -/
theorem claim_C3_witness :
    (watchLine 1 accC3 ("Output #0, mp4")).out = accC3.out
    ∧ (watchLine 1 accC3 ("Output #0, mp4")).s0 = accC3.s0 :=
  (claim_C3_monotonic_emission 1 accC3 ("Output #0, mp4")).2.1 (by decide)

/-- C6: for each sample consumed by the supervising loop, the stall
counter becomes `n + 1` exactly when the new frame count is at most the
prior frame count and nonzero, and resets to zero on any frame increase or
a zero frame count. -/
theorem claim_C6_stall_counter (prior current : State) (n : Nat) :
    (nstallStep prior current n = n + 1
      ↔ (current.Frame ≤ prior.Frame ∧ current.Frame ≠ 0))
    ∧ ((prior.Frame < current.Frame ∨ current.Frame = 0) →
        nstallStep prior current n = 0) := by
  unfold nstallStep
  by_cases h : current.Frame ≤ prior.Frame ∧ current.Frame ≠ 0
  · rw [if_pos h]
    refine ⟨⟨fun _ => h, fun _ => rfl⟩, fun hor => ?_⟩
    rcases hor with h1 | h1
    · exact absurd h.1 (not_le.mpr h1)
    · exact absurd h1 h.2
  · rw [if_neg h]
    exact ⟨⟨fun h0 => absurd h0.symm (Nat.succ_ne_zero n), fun hc => absurd hc h⟩,
      fun _ => rfl⟩

/-- C6 witness: a repeated nonzero frame count increments the counter from
3 to 4; a frame increase resets it to 0. -/
theorem claim_C6_witness :
    nstallStep exPrior exCur 3 = 4 ∧ nstallStep exPrior exCur2 3 = 0 :=
  ⟨(claim_C6_stall_counter exPrior exCur 3).1.mpr (by decide),
   (claim_C6_stall_counter exPrior exCur2 3).2 (Or.inl (by decide))⟩

/-- C9: the error-tail scan returns the first captured line, in emission
order, matching any fatal pattern, and the empty string when no line
matches; in particular, for the captured lines
`frame=1 size=1`, `Error opening file`, `frame=2 size=2` it returns
`Error opening file`. -/
theorem claim_C9_error_tail :
    (∀ captured : List String,
      (∀ l ∈ captured, matchesErr l.toList = false) → lastline captured = "")
    ∧ (∀ (pre : List String) (l : String) (post : List String),
        (∀ l' ∈ pre, matchesErr l'.toList = false) → matchesErr l.toList = true →
        lastline (pre ++ l :: post) = l)
    ∧ lastline ["frame=1 size=1", "Error opening file", "frame=2 size=2"]
        = "Error opening file" := by
  refine ⟨?_, ?_, by decide⟩
  · intro captured
    induction captured with
    | nil => intro _; rfl
    | cons l ls ih =>
      intro h
      have hl : matchesErr l.toList = false := h l (List.mem_cons_self l ls)
      simp only [lastline, hl, Bool.false_eq_true, if_false]
      exact ih (fun l' hl' => h l' (List.mem_cons_of_mem l hl'))
  · intro pre l post
    induction pre with
    | nil =>
      intro _ hm
      simp only [List.nil_append, lastline, hm, if_true]
    | cons p ps ih =>
      intro h hm
      have hp : matchesErr p.toList = false := h p (List.mem_cons_self p ps)
      simp only [List.cons_append, lastline, hp, Bool.false_eq_true, if_false]
      exact ih (fun l' hl' => h l' (List.mem_cons_of_mem p hl')) hm

/-- C9 witness: the first-match clause applied at the concrete split of
the example capture around its matching line. -/
theorem claim_C9_witness :
    lastline (["frame=1 size=1"] ++ "Error opening file" :: ["frame=2 size=2"])
      = "Error opening file" :=
  claim_C9_error_tail.2.1 ["frame=1 size=1"] ("Error opening file") ["frame=2 size=2"]
    (by
      intro l' hl'
      rw [List.mem_singleton] at hl'
      subst hl'
      decide)
    (by decide)

/-- C1 counterexample: subprocess exits with status zero, the captured
output holds the matching line `Error opening file`, no condition flag is
set — the claim says the run still completes successfully (no strict mode
is configured anywhere), but the code synthesizes a failure and terminates
as `Failed` reporting the error tail. -/
theorem claim_C1_counterexample :
    exitDecision cfgC1 ⟨false, false⟩ false ["Error opening file"]
      = Outcome.failed ("Error opening file")
    ∧ exitDecision cfgC1 ⟨false, false⟩ false ["Error opening file"] ≠ Outcome.done := by
  decide

/-- C1 amended: when the subprocess exits with status zero but the
error-tail scan finds a matching line and no condition flags are set, the
supervisor synthesizes a failure (`ffmpeg failed`) and terminates as
`Failed` reporting the error tail; the code has no strict mode and no
benign-false-positive downgrade. -/
theorem claim_C1_amended (cfg : ExitCfg) (captured : List String)
    (h : lastline captured ≠ "") :
    exitDecision cfg ⟨false, false⟩ false captured = Outcome.failed (lastline captured) := by
  simp [exitDecision, h]

/-- C1 witness: the amended statement at a concrete capture whose tail
matches the leading-error pattern. -/
theorem claim_C1_witness :
    exitDecision cfgC1 ⟨false, false⟩ false ["error while decoding MB 11 22"]
      = Outcome.failed (lastline ["error while decoding MB 11 22"]) :=
  claim_C1_amended cfgC1 ["error while decoding MB 11 22"] (by decide)

/-- C4: with the vram-overflow flag set on a failed run, the supervisor
fails fatally reporting the error tail once the retry counter has reached
the max-retry budget, and otherwise re-executes itself after the fixed
backoff with the retry counter incremented and the argument vector
unchanged. -/
theorem claim_C4_vram_retry (cfg : ExitCfg) (fl : Flags) (exitErr : Bool)
    (captured : List String)
    (hv : fl.vramoverflow = true)
    (hfail : exitErr = true ∨ lastline captured ≠ "") :
    (cfg.maxretry ≤ cfg.retry →
      exitDecision cfg fl exitErr captured = Outcome.failed (lastline captured))
    ∧ (cfg.retry < cfg.maxretry →
      exitDecision cfg fl exitErr captured
        = Outcome.retrying cfg.argv (cfg.retry + 1) true) := by
  have hne : ¬(exitErr = false ∧ lastline captured = "") := by
    rcases hfail with h | h
    · intro hc
      rw [h] at hc
      exact absurd hc.1 (by decide)
    · exact fun hc => h hc.2
  constructor
  · intro hb
    simp [exitDecision, hne, hv, hb]
  · intro hb
    simp [exitDecision, hne, hv, not_le.mpr hb]

/-- C4 witness: at the budget (60 of 60) the vram path fails fatally; below
the budget (2 of 60) it retries with counter 3, backoff, and the same
argument vector. -/
theorem claim_C4_witness :
    exitDecision cfgC4a flagsVram true [] = Outcome.failed (lastline [])
    ∧ exitDecision cfgC4b flagsVram true []
        = Outcome.retrying cfgC4b.argv (2 + 1) true :=
  ⟨(claim_C4_vram_retry cfgC4a flagsVram true [] rfl (Or.inl rfl)).1 (by decide),
   (claim_C4_vram_retry cfgC4b flagsVram true [] rfl (Or.inl rfl)).2 (by decide)⟩

/-- C5: with the hardware-frames flag set (and vram-overflow clear) on a
failed run, while the tracked `extra_hw_frames` value is strictly below
the ceiling the supervisor rewrites exactly the pointed-at argument to the
incremented value and retries; once the value has reached the ceiling the
run falls through to `Failed`. -/
theorem claim_C5_hwframes_retry (cfg : ExitCfg) (fl : Flags) (exitErr : Bool)
    (captured : List String)
    (hv : fl.vramoverflow = false) (hb : fl.hwframesbug = true)
    (hfail : exitErr = true ∨ lastline captured ≠ "") :
    (∀ i, cfg.hwframesptr = some i → cfg.hwframes < cfg.hwframesmax →
      exitDecision cfg fl exitErr captured
        = Outcome.retrying (cfg.argv.set i (toString (cfg.hwframes + 1))) (cfg.retry + 1) false
      ∧ ∀ j, j ≠ i →
          (cfg.argv.set i (toString (cfg.hwframes + 1)))[j]? = cfg.argv[j]?)
    ∧ (cfg.hwframesmax ≤ cfg.hwframes →
      exitDecision cfg fl exitErr captured = Outcome.failed (lastline captured)) := by
  have hne : ¬(exitErr = false ∧ lastline captured = "") := by
    rcases hfail with h | h
    · intro hc
      rw [h] at hc
      exact absurd hc.1 (by decide)
    · exact fun hc => h hc.2
  constructor
  · intro i hi hlt
    constructor
    · simp [exitDecision, hne, hv, hb, hlt, hi]
    · intro j hj
      exact List.getElem?_set_ne (Ne.symm hj)
  · intro hge
    simp [exitDecision, hne, hv, hb, not_lt.mpr hge]

/-- C5 witness: with tracked value 8 and ceiling 64 the pointed-at
argument (index 2) becomes the incremented value and the run retries,
other arguments untouched; with tracked value 64 at ceiling 64 the run
fails. -/
theorem claim_C5_witness :
    exitDecision cfgC5 flagsHw true []
      = Outcome.retrying (cfgC5.argv.set 2 (toString ((8 : Int) + 1))) (1 + 1) false
    ∧ (cfgC5.argv.set 2 (toString ((8 : Int) + 1)))[0]? = cfgC5.argv[0]?
    ∧ exitDecision cfgC5b flagsHw true [] = Outcome.failed (lastline []) :=
  ⟨((claim_C5_hwframes_retry cfgC5 flagsHw true [] rfl rfl (Or.inl rfl)).1
      2 rfl (by decide)).1,
   ((claim_C5_hwframes_retry cfgC5 flagsHw true [] rfl rfl (Or.inl rfl)).1
      2 rfl (by decide)).2 0 (by decide),
   (claim_C5_hwframes_retry cfgC5b flagsHw true [] rfl rfl (Or.inl rfl)).2 (by decide)⟩

/-- C2: with the filter-incompatibility flag set on a failed run and the
known-bad filter-chain fragment present in the argument vector, the
supervisor rewrites that fragment to the known-good equivalent and goes to
`Retrying`, for every retry counter and budget (no budget check). -/
theorem claim_C2_filter_rewrite (bad good : String) (filterbug : Bool)
    (cfg : ExitCfg) (fl : Flags) (exitErr : Bool) (captured : List String)
    (hfail : exitErr = true ∨ lastline captured ≠ "")
    (hf : filterbug = true)
    (hfrag : argvHasFragment bad cfg.argv = true) :
    exitDecisionSpec bad good filterbug cfg fl exitErr captured
      = Outcome.retrying (rewriteFragment bad good cfg.argv) (cfg.retry + 1) false := by
  unfold exitDecisionSpec
  rw [if_pos ⟨hfail, hf, hfrag⟩]

/-- C2 witness: a concrete argument vector containing the fragment, with
the retry counter (7) already past the budget (3) — the rewrite-and-retry
still fires. -/
theorem claim_C2_witness :
    exitDecisionSpec ("scale_cuda") ("scale_npp") true cfgC2 ⟨false, false⟩ true []
      = Outcome.retrying (rewriteFragment ("scale_cuda") ("scale_npp") cfgC2.argv)
          (7 + 1) false :=
  claim_C2_filter_rewrite ("scale_cuda") ("scale_npp") true cfgC2 ⟨false, false⟩ true []
    (Or.inl rfl) rfl (by decide)

/-- Soundness of the bootstrap scan: a non-nil pointer index `i` satisfies
`1 ≤ i < |argv|` and the preceding argument is the `-extra_hw_frames`
token. -/
theorem hwframesScan_sound :
    ∀ (argv : List String) (i : Nat), hwframesScan argv = some i →
      1 ≤ i ∧ i < argv.length ∧ argv[i - 1]? = some ("-extra_hw_frames")
  | [], i => by simp [hwframesScan]
  | [a], i => by simp [hwframesScan]
  | a :: b :: rest, i => by
    intro h
    simp only [hwframesScan] at h
    cases h' : hwframesScan (b :: rest) with
    | some j =>
      rw [h'] at h
      obtain ⟨h1, h2, h3⟩ := hwframesScan_sound (b :: rest) j h'
      have hij : i = j + 1 := (Option.some_inj.mp h).symm
      subst hij
      refine ⟨by omega, ?_, ?_⟩
      · simp only [List.length_cons] at h2 ⊢
        omega
      · have hj : j + 1 - 1 = (j - 1) + 1 := by omega
        rw [hj]
        simpa using h3
    | none =>
      rw [h'] at h
      by_cases ha : a = "-extra_hw_frames"
      · rw [if_pos ha] at h
        have hi1 : i = 1 := (Option.some_inj.mp h).symm
        subst hi1
        exact ⟨le_refl 1, by simp, by simp [ha]⟩
      · rw [if_neg ha] at h
        exact absurd h (by simp)

/-- When the token never occurs in the argument vector, the bootstrap scan
leaves the pointer nil. -/
theorem hwframesScan_not_mem :
    ∀ argv : List String, ("-extra_hw_frames") ∉ argv → hwframesScan argv = none
  | [] => fun _ => rfl
  | [_] => fun _ => rfl
  | a :: b :: rest => fun h => by
    have ha : a ≠ "-extra_hw_frames" := fun hc => h (by rw [hc]; exact List.mem_cons_self _ _)
    have ht : ("-extra_hw_frames") ∉ b :: rest := fun hc => h (List.mem_cons_of_mem a hc)
    simp only [hwframesScan, hwframesScan_not_mem (b :: rest) ht]
    rw [if_neg (fun hc => ha hc)]

/-- C10: the `-extra_hw_frames` pointer is non-nil only when some argument
is preceded by that token (and then it indexes the following argument);
for every argument vector without the token, a failing exit with the
hardware-frames flag set, vram-overflow clear, and a positive ceiling
reaches the nil-pointer dereference; with a non-nil pointer the same path
performs the retry mutation safely instead. -/
theorem claim_C10_nil_deref :
    (∀ (argv : List String) (i : Nat), hwframesScan argv = some i →
      1 ≤ i ∧ i < argv.length ∧ argv[i - 1]? = some ("-extra_hw_frames"))
    ∧ (∀ (argv : List String) (fl : Flags) (exitErr : Bool) (captured : List String)
        (retry maxretry hwmax : Int),
        ("-extra_hw_frames") ∉ argv →
        fl.hwframesbug = true → fl.vramoverflow = false →
        (exitErr = true ∨ lastline captured ≠ "") → (0 : Int) < hwmax →
        exitDecision ⟨argv, retry, maxretry, hwframesInit argv, hwmax, hwframesScan argv⟩
          fl exitErr captured = Outcome.nilDeref)
    ∧ (∀ (argv : List String) (i : Nat) (fl : Flags) (exitErr : Bool)
        (captured : List String) (retry maxretry hw hwmax : Int),
        hwframesScan argv = some i →
        fl.hwframesbug = true → fl.vramoverflow = false →
        (exitErr = true ∨ lastline captured ≠ "") → hw < hwmax →
        exitDecision ⟨argv, retry, maxretry, hw, hwmax, some i⟩ fl exitErr captured
          = Outcome.retrying (argv.set i (toString (hw + 1))) (retry + 1) false) := by
  refine ⟨hwframesScan_sound, ?_, ?_⟩
  · intro argv fl exitErr captured retry maxretry hwmax hmem hb hv hfail hpos
    have hne : ¬(exitErr = false ∧ lastline captured = "") := by
      rcases hfail with h | h
      · intro hc
        rw [h] at hc
        exact absurd hc.1 (by decide)
      · exact fun hc => h hc.2
    have hscan : hwframesScan argv = none := hwframesScan_not_mem argv hmem
    have hinit : hwframesInit argv = 0 := by
      simp [hwframesInit, hscan]
    simp [exitDecision, hne, hv, hb, hscan, hinit, hpos]
  · intro argv i fl exitErr captured retry maxretry hw hwmax _ hb hv hfail hlt
    have hne : ¬(exitErr = false ∧ lastline captured = "") := by
      rcases hfail with h | h
      · intro hc
        rw [h] at hc
        exact absurd hc.1 (by decide)
      · exact fun hc => h hc.2
    simp [exitDecision, hne, hv, hb, hlt]

/-- C10 witness: a concrete vector with no `-extra_hw_frames` token hits
the nil dereference on the hardware-frames retry path, while the scan of a
vector with the token yields a sound index. -/
theorem claim_C10_witness :
    exitDecision ⟨argvC10, 0, 60, hwframesInit argvC10, 64, hwframesScan argvC10⟩
        ⟨true, false⟩ true [] = Outcome.nilDeref
    ∧ (1 ≤ 2 ∧ 2 < argvC10b.length ∧ argvC10b[2 - 1]? = some ("-extra_hw_frames")) :=
  ⟨claim_C10_nil_deref.2.1 argvC10 ⟨true, false⟩ true [] 0 60 64
      (by decide) rfl rfl (Or.inl rfl) (by decide),
   claim_C10_nil_deref.1 argvC10b 2 (by decide)⟩
